import Mathlib

/-!
# pxgconf: a line protocol bridge between a GConf store and stdin/stdout

Shallow embedding of `src/libproxy/modules/pxgconf.cpp`.

* C strings are lists of `Char`, one element per C `char`; a buffer may hold
  NUL characters and `cstr` gives the text a C string function sees.
* `int` is an `Int` in the 32-bit signed range, `gdouble` and `float` are
  IEEE 754 bit patterns kept as `Nat`.
* The C library (`printf`, `sscanf`) is modelled after glibc in the C locale
  on an LP64 platform; a call to `printf` succeeds unless its text is longer
  than `INT_MAX`, and additions of `int` wrap around modulo 2 ^ 32.
* The GConf store, the GLib channel and the GLib main loop are external to
  the program: they are modelled by the state they expose to it.
-/

set_option autoImplicit false

namespace PxGConf

/-! ## C strings -/

/-- A C string or character buffer: one `Char` per C `char`. -/
abbrev CString := List Char

/-- The NUL character that ends a C string. -/
def NUL : Char := Char.ofNat 0

/-- The TAB character, the needle `"\t"` of `g_strrstr`. -/
def TAB : Char := '\t'

/-- The newline character. -/
def NL : Char := '\n'

/-- The text a C string function sees in a buffer: the characters before the first NUL. -/
def cstr (buf : CString) : CString := buf.takeWhile (fun c => c != NUL)

/-! ## GConf values -/

/-- The `GConfValueType` enumeration. -/
inductive GConfValueType where
  | GCONF_VALUE_INVALID
  | GCONF_VALUE_STRING
  | GCONF_VALUE_INT
  | GCONF_VALUE_FLOAT
  | GCONF_VALUE_BOOL
  | GCONF_VALUE_SCHEMA
  | GCONF_VALUE_LIST
  | GCONF_VALUE_PAIR
  deriving DecidableEq, Repr

mutual
/-- A `GConfValue`: the tagged union the store hands to the program. A Float holds the
binary64 bit pattern of its `gdouble`. -/
inductive GConfValue where
  | string (s : CString)
  | int (n : Int)
  | float (bits : Nat)
  | bool (b : Bool)
  | list (l : GSList)
  | pair (car : ValuePtr) (cdr : ValuePtr)
  | schema
  | invalid
/-- A `const GConfValue *`: NULL or a value. -/
inductive ValuePtr where
  | null
  | ptr (v : GConfValue)
/-- A `GSList *` of value pointers: NULL or a cell with `data` and `next`. -/
inductive GSList where
  | nil
  | cons (data : ValuePtr) (next : GSList)
end

/-- The field `value->type`. -/
def GConfValue.type : GConfValue → GConfValueType
  | .string _ => .GCONF_VALUE_STRING
  | .int _ => .GCONF_VALUE_INT
  | .float _ => .GCONF_VALUE_FLOAT
  | .bool _ => .GCONF_VALUE_BOOL
  | .list _ => .GCONF_VALUE_LIST
  | .pair _ _ => .GCONF_VALUE_PAIR
  | .schema => .GCONF_VALUE_SCHEMA
  | .invalid => .GCONF_VALUE_INVALID

/-- The list cells built from a Lean list of value pointers, in order. -/
def GSList.ofList : List ValuePtr → GSList
  | [] => .nil
  | p :: ps => .cons p (GSList.ofList ps)

/-! ## The C library: formatted output -/

/-- The decimal digit character of a number below ten. -/
def digitChar (d : Nat) : Char := Char.ofNat (48 + d)

/-- Decimal digits of `n`, most significant first; `fuel` bounds the number of digits. -/
def digitsAux : Nat → Nat → CString
  | 0, _ => []
  | fuel + 1, n =>
    if n < 10 then [digitChar n]
    else digitsAux fuel (n / 10) ++ [digitChar (n % 10)]

/-- The decimal rendering of a natural number. -/
def natDigits (n : Nat) : CString := digitsAux (n + 1) n

/-- What `printf("%d", n)` writes. -/
def printf_d (n : Int) : CString :=
  if n < 0 then '-' :: natDigits n.natAbs else natDigits n.natAbs

/-- The integer nearest to `p / q`, a tie going to the even neighbour. -/
def roundHalfEven (p q : Nat) : Nat :=
  let d := p / q
  let r := p % q
  if 2 * r < q then d
  else if q < 2 * r then d + 1
  else if d % 2 = 0 then d else d + 1

/-- The six digits after the decimal point for a fraction of `n` millionths. -/
def sixDigits (n : Nat) : CString :=
  [digitChar (n / 100000 % 10), digitChar (n / 10000 % 10), digitChar (n / 1000 % 10),
   digitChar (n / 100 % 10), digitChar (n / 10 % 10), digitChar (n % 10)]

/-- What `printf("%f", x)` writes for the `double` with bit pattern `bits`: the value
rounded to six decimals (nearest, ties to even), or `inf` / `nan`, with `-` when the sign
bit is set. -/
def printf_f (bits : Nat) : CString :=
  let sign : CString := if bits / 2 ^ 63 % 2 = 1 then ['-'] else []
  let e := bits / 2 ^ 52 % 2 ^ 11
  let f := bits % 2 ^ 52
  if e = 2047 then
    sign ++ (if f = 0 then ['i', 'n', 'f'] else ['n', 'a', 'n'])
  else
    let m := if e = 0 then f else 2 ^ 52 + f
    let x := if e = 0 then 1 else e
    -- the value is m * 2 ^ (x - 1075)
    let n := if 1075 ≤ x then m * 2 ^ (x - 1075) * 1000000
             else roundHalfEven (m * 1000000) (2 ^ (1075 - x))
    sign ++ natDigits (n / 1000000) ++ ['.'] ++ sixDigits (n % 1000000)

/-! ## The C library: formatted input -/

/-- The C `isspace` in the C locale. -/
def isspace (c : Char) : Bool :=
  c == ' ' || c == '\t' || c == '\n' || c == Char.ofNat 11 || c == Char.ofNat 12 || c == '\r'

/-- The C `isdigit`. -/
def isdigit (c : Char) : Bool := decide (48 ≤ c.toNat) && decide (c.toNat ≤ 57)

/-- The C `isxdigit`. -/
def isxdigit (c : Char) : Bool :=
  isdigit c || (decide (97 ≤ c.toNat) && decide (c.toNat ≤ 102))
    || (decide (65 ≤ c.toNat) && decide (c.toNat ≤ 70))

/-- The value of a decimal or hexadecimal digit character. -/
def xdigitVal (c : Char) : Nat :=
  if isdigit c then c.toNat - 48
  else if 97 ≤ c.toNat then c.toNat - 87
  else c.toNat - 55

/-- The number written by a run of digits in the given base. -/
def digitsVal (base : Nat) (ds : CString) : Nat :=
  ds.foldl (fun acc c => base * acc + xdigitVal c) 0

/-- A value of type `long` on LP64: out of range results of `strtol` saturate. -/
def clampLong (n : Int) : Int :=
  if n < -(2 ^ 63) then -(2 ^ 63) else if 2 ^ 63 - 1 < n then 2 ^ 63 - 1 else n

/-- Conversion to `int`: the low 32 bits, read as two's complement. -/
def wrap32 (n : Int) : Int := (n + 2 ^ 31) % 2 ^ 32 - 2 ^ 31

/-- An optional sign: whether it is `-`, and the text after it. -/
def scanSign : CString → Bool × CString
  | '-' :: r => (true, r)
  | '+' :: r => (false, r)
  | s => (false, s)

/-- The call `sscanf(val, "%d", &ival)`: `some ival` when it returns 1, `none` when it
returns 0 or EOF. White space is skipped, then an optional sign and at least one decimal
digit are read; the digits are converted as by `strtol` and stored as an `int`. -/
def sscanf_d (val : CString) : Option Int :=
  let s := scanSign (val.dropWhile isspace)
  match s.2.takeWhile isdigit with
  | [] => none
  | d :: ds =>
    let m : Int := digitsVal 10 (d :: ds)
    some (wrap32 (clampLong (if s.1 then -m else m)))

/-- The number of halvings that bring `n` below 2; `fuel` bounds their number. -/
def log2Aux : Nat → Nat → Nat
  | 0, _ => 0
  | fuel + 1, n => if n < 2 then 0 else log2Aux fuel (n / 2) + 1

/-- The position of the highest set bit of a positive number. -/
def log2 (n : Nat) : Nat := log2Aux n n

/-- The largest `e` with `2 ^ e ≤ p / q`, for positive `p` and `q`. -/
def floorLog2 (p q : Nat) : Int :=
  let l : Int := (log2 p : Int) - (log2 q : Int)
  if (if 0 ≤ l then decide (q * 2 ^ l.toNat ≤ p) else decide (q ≤ p * 2 ^ (-l).toNat))
  then l else l - 1

/-- The binary32 bit pattern of the `float` nearest to `p / q` (ties to even), with the
given sign; a magnitude beyond the largest `float` gives infinity. -/
def binary32 (neg : Bool) (p q : Nat) : Nat :=
  let sign := if neg then 2 ^ 31 else 0
  if p = 0 then sign
  else
    let e0 := floorLog2 p q
    let e := if e0 < -126 then -126 else e0
    let s : Int := 23 - e
    let m := if 0 ≤ s then roundHalfEven (p * 2 ^ s.toNat) q
             else roundHalfEven p (q * 2 ^ (-s).toNat)
    let e := if m = 2 ^ 24 then e + 1 else e
    let m := if m = 2 ^ 24 then 2 ^ 23 else m
    if 127 < e then sign + 255 * 2 ^ 23
    else if m < 2 ^ 23 then sign + m
    else sign + (e + 127).toNat * 2 ^ 23 + (m - 2 ^ 23)

/-- An exponent part: the marker character (`e` or `p`, either case), an optional sign and
at least one decimal digit give the exponent; anything else gives exponent 0. -/
def scanExponent (lower upper : Char) : CString → Int
  | c :: r =>
    if c == lower || c == upper then
      let s := scanSign r
      match s.2.takeWhile isdigit with
      | [] => 0
      | d :: ds => if s.1 then -(digitsVal 10 (d :: ds) : Int) else digitsVal 10 (d :: ds)
    else 0
  | [] => 0

/-- A mantissa in the given base followed by an exponent of the given radix: the binary32
bit pattern of `digits * radix ^ (exponent - scale * number of fraction digits)`, or `none`
when the mantissa has no digit. -/
def scanMantissa (neg : Bool) (isDig : Char → Bool) (base radix scale : Nat)
    (lower upper : Char) (s : CString) : Option Nat :=
  let ip := s.takeWhile isDig
  let r := s.dropWhile isDig
  let fp := match r with
    | '.' :: t => t.takeWhile isDig
    | _ => []
  let r := match r with
    | '.' :: t => t.dropWhile isDig
    | _ => r
  if ip.length + fp.length = 0 then none
  else
    let m := digitsVal base (ip ++ fp)
    let x : Int := scanExponent lower upper r - (scale * fp.length : Nat)
    if 0 ≤ x then some (binary32 neg (m * radix ^ x.toNat) 1)
    else some (binary32 neg m (radix ^ (-x).toNat))

/-- Whether the text starts with the given word of lower-case letters, in either case. -/
def startsWithNoCase : CString → CString → Bool
  | _, [] => true
  | [], _ :: _ => false
  | c :: cs, w :: ws => (c == w || c.toNat + 32 == w.toNat) && startsWithNoCase cs ws

/-- The text after a hexadecimal prefix `0x` or `0X`, if the text starts with one. -/
def hexPrefix : CString → Option CString
  | '0' :: 'x' :: r => some r
  | '0' :: 'X' :: r => some r
  | _ => none

/-- The float stored by `sscanf(val, "%f", ...)`, as a binary32 bit pattern: `some bits` when
the call returns 1, `none` when it returns 0 or EOF. White space is skipped and an optional
sign read; then `inf`/`infinity`, `nan`, a hexadecimal literal after `0x`, or a decimal
literal with at least one digit and an optional exponent. After `0x`, a point that no
hexadecimal digit precedes or follows is read as zero, and anything else without a
hexadecimal digit is no match. -/
def sscanf_f (val : CString) : Option Nat :=
  let s := scanSign (val.dropWhile isspace)
  let sign := if s.1 then 2 ^ 31 else 0
  if startsWithNoCase s.2 ['i', 'n', 'f'] then
    if startsWithNoCase (s.2.drop 3) ['i'] then
      if startsWithNoCase (s.2.drop 3) ['i', 'n', 'i', 't', 'y'] then some (sign + 255 * 2 ^ 23)
      else none
    else some (sign + 255 * 2 ^ 23)
  else if startsWithNoCase s.2 ['n', 'a', 'n'] then some (sign + 255 * 2 ^ 23 + 2 ^ 22)
  else
    match hexPrefix s.2 with
    | some r =>
      match scanMantissa s.1 isxdigit 16 2 4 'p' 'P' r with
      | some bits => some bits
      | none =>
        match r with
        | '.' :: _ => some sign
        | _ => none
    | none => scanMantissa s.1 isdigit 10 10 1 'e' 'E' s.2

/-- The `int` whose storage holds the given 32-bit pattern. -/
def int_of_bits (bits : Nat) : Int :=
  if bits % 2 ^ 32 < 2 ^ 31 then (bits % 2 ^ 32 : Nat) else (bits % 2 ^ 32 : Nat) - 2 ^ 32

/-- The call `sscanf(val, "%f", &fval)` with `int fval`: the scanner stores a `float` in the
storage of the `int`, so `fval` is the float's bit pattern read as an integer. -/
def sscanf_f_int (val : CString) : Option Int :=
  (sscanf_f val).map int_of_bits

/-- Conversion of an `int` to `gdouble`, as a binary64 bit pattern (always exact). -/
def double_of_int (n : Int) : Nat :=
  if n = 0 then 0
  else
    let a := n.natAbs
    let e := log2 a
    (if n < 0 then 2 ^ 63 else 0) + (e + 1023) * 2 ^ 52 + (a * 2 ^ (52 - e)) % 2 ^ 52

/-! ## Serialising a value -/

/-- The `int` a call to `printf` returns for the text it is asked to write: the length of
the text when that fits an `int`; for a longer text `printf` fails and returns -1. -/
def printf_ret (text : CString) : Int :=
  if text.length < 2 ^ 31 then (text.length : Int) else -1

mutual
/-- The function `_print_value`: the text written to stdout and the returned `int`. Sums
of counts are additions of `int` and wrap around; as addition modulo 2 ^ 32 is associative,
the order in which the loop accumulates `count` does not change the result. -/
def _print_value : ValuePtr → CString → CString × Int
  | .null, _ => ([], 0)
  | .ptr v, suffix => _print_value.switch v suffix
/-- The `switch (value->type)` of `_print_value`. -/
def _print_value.switch : GConfValue → CString → CString × Int
  | .string s, suffix => (s ++ suffix, printf_ret (s ++ suffix))
  | .int n, suffix => (printf_d n ++ suffix, printf_ret (printf_d n ++ suffix))
  | .float x, suffix => (printf_f x ++ suffix, printf_ret (printf_f x ++ suffix))
  | .bool b, suffix =>
    if b then ("true".toList ++ suffix, printf_ret ("true".toList ++ suffix))
    else ("false".toList ++ suffix, printf_ret ("false".toList ++ suffix))
  | .list l, suffix => _print_value.loop l suffix
  | .pair car cdr, suffix =>
    let a := _print_value car [',']
    let b := _print_value cdr suffix
    (a.1 ++ b.1, wrap32 (a.2 + b.2))
  | .schema, _ => ([], 0)
  | .invalid, _ => ([], 0)
/-- The `for` loop of `_print_value` over the cells of a list: `count` accumulates the
results, every element but the last is given the suffix `","`. -/
def _print_value.loop : GSList → CString → CString × Int
  | .nil, _ => ([], 0)
  | .cons data next, suffix =>
    let a := _print_value data (match next with | .nil => suffix | .cons _ _ => [','])
    let b := _print_value.loop next suffix
    (a.1 ++ b.1, wrap32 (a.2 + b.2))
end

/-! ## The store, the channel and the process state -/

/-- A `GConfEntry`: the key of a notification and its value, NULL when the key is unset. -/
structure GConfEntry where
  key : CString
  value : ValuePtr

/-- A call made on the GConf client, as recorded in the trace of store calls. The program
never calls `gconf_client_set_bool`; the constructor stands for that call of the store's
interface. -/
inductive StoreCall where
  | get (key : CString)
  | set_string (key : CString) (val : CString)
  | set_int (key : CString) (val : Int)
  | set_float (key : CString) (val : Nat)
  | set_bool (key : CString) (val : Bool)
  | add_dir (dir : CString)
  | notify_add (dir : CString)
  | notify (key : CString)

/-- Whether a store call is one of the typed setters. -/
def StoreCall.isSetter : StoreCall → Bool
  | .set_string _ _ => true
  | .set_int _ _ => true
  | .set_float _ _ => true
  | .set_bool _ _ => true
  | _ => false

/-- The GConf store as the program sees it: the current value of every key (NULL when
unset) and whether the store accepts a write to the key. -/
structure GConfClient where
  value : CString → ValuePtr
  writable : CString → Bool

/-- The store after a typed setter stored `v` under `key`. -/
def GConfClient.store (c : GConfClient) (key : CString) (v : GConfValue) : GConfClient :=
  { c with value := fun k => if k = key then .ptr v else c.value k }

/-- The `GIOStatus` enumeration. -/
inductive GIOStatus where
  | G_IO_STATUS_ERROR
  | G_IO_STATUS_NORMAL
  | G_IO_STATUS_EOF
  | G_IO_STATUS_AGAIN
  deriving DecidableEq, Repr

/-- The outcome of one `g_io_channel_read_line`: the status and the string pointer it
stored in `key` (`none` for NULL), a buffer holding the line with its terminator. GLib
stores NULL whenever the status is not normal; the two fields are kept independent, as
`_stdin` tests both. -/
structure ReadLine where
  status : GIOStatus
  str : Option CString

/-- The event sources added by `g_io_add_watch` in `main`, in the order they are added. -/
inductive Source where
  | in_IN
  | in_PRI
  | in_ERR
  | in_HUP
  | out_ERR
  | out_HUP
  deriving DecidableEq, Repr

/-- The state of the process and of its collaborators. -/
structure World where
  /-- the GConf store -/
  client : GConfClient
  /-- the calls made on the store so far, oldest first -/
  calls : List StoreCall
  /-- the text written to stdout so far -/
  stdout : CString
  /-- the text written to stderr so far -/
  stderr : CString
  /-- the messages the program logged with `g_critical` so far -/
  criticals : List CString
  /-- the outcome of the n-th read of a line from the input channel -/
  reads : Nat → ReadLine
  /-- the number of reads made so far -/
  nread : Nat
  /-- the event sources still attached to the main loop -/
  sources : List Source
  /-- the flag `loop->is_running`, cleared by `g_main_loop_quit` -/
  running : Bool

/-- Appends a call to the trace of store calls. -/
def World.call (w : World) (c : StoreCall) : World := { w with calls := w.calls ++ [c] }

/-- The call `gconf_client_set_string`: whether it succeeded, and the state after it. -/
def gconf_client_set_string (w : World) (key val : CString) : Bool × World :=
  let w := w.call (.set_string key val)
  if w.client.writable key then (true, { w with client := w.client.store key (.string val) })
  else (false, w)

/-- The call `gconf_client_set_int`: whether it succeeded, and the state after it. -/
def gconf_client_set_int (w : World) (key : CString) (val : Int) : Bool × World :=
  let w := w.call (.set_int key val)
  if w.client.writable key then (true, { w with client := w.client.store key (.int val) })
  else (false, w)

/-- The call `gconf_client_set_float`: whether it succeeded, and the state after it. -/
def gconf_client_set_float (w : World) (key : CString) (val : Nat) : Bool × World :=
  let w := w.call (.set_float key val)
  if w.client.writable key then (true, { w with client := w.client.store key (.float val) })
  else (false, w)

/-! ## The callbacks -/

/-- The function `_on_value_change`: writes the key and a TAB, then the value with the
suffix `"\n"`. -/
def _on_value_change (entry : GConfEntry) (w : World) : World :=
  let w := { w with stdout := w.stdout ++ (entry.key ++ [TAB]) }
  { w with stdout := w.stdout ++ (_print_value entry.value [NL]).1 }

/-- The function `_on_sig`: `g_main_loop_quit(loop)`. -/
def _on_sig (w : World) : World := { w with running := false }

/-- The function `_error`: `g_main_loop_quit(loop)`, then `return false`. -/
def _error (w : World) : Bool × World := (false, { w with running := false })

/-- The function `_set_key`: reads the current value of the key to find its type (String
when the key is unset), converts the text and calls a setter; returns `!error`. -/
def _set_key (key val : CString) (w : World) : Bool × World :=
  let value := w.client.value key
  let w := w.call (.get key)
  let type := match value with
    | .ptr v => v.type
    | .null => GConfValueType.GCONF_VALUE_STRING
  match type with
  | .GCONF_VALUE_STRING => gconf_client_set_string w key val
  | .GCONF_VALUE_INT =>
    match sscanf_d val with
    | none => (false, w)
    | some ival => gconf_client_set_int w key ival
  | .GCONF_VALUE_FLOAT =>
    match sscanf_f_int val with
    | none => (false, w)
    | some fval => gconf_client_set_float w key (double_of_int fval)
  | .GCONF_VALUE_BOOL =>
    gconf_client_set_float w key (double_of_int (if val = "true".toList then 1 else 0))
  | _ => (false, { w with criticals := w.criticals ++ ["Invalid value type!".toList] })

/-- The loop of `_stdin` that removes the trailing newline: up to the NUL that ends the
buffer, every newline is overwritten with NUL. -/
def removeNewlines : CString → CString
  | [] => []
  | c :: cs => if c == NUL then c :: cs else (if c == NL then NUL else c) :: removeNewlines cs

/-- The call `g_strrstr(haystack, needle)` for a needle of one character: the index of the
last occurrence of `needle` in the text, `none` for NULL. -/
def g_strrstr (haystack : CString) (needle : Char) : Option Nat :=
  match haystack with
  | [] => none
  | c :: cs =>
    match g_strrstr cs needle with
    | some i => some (i + 1)
    | none => if c == needle then some 0 else none

/-- The function `_stdin`: reads one line, splits it at its last TAB and writes the value
to the store. It returns whether the watch stays attached; `fuel` bounds the reads made
through the recursive call of the `G_IO_STATUS_AGAIN` branch, and `none` is a run that
needs more. -/
def _stdin : Nat → World → Option (Bool × World)
  | 0, _ => none
  | fuel + 1, w =>
    let r := w.reads w.nread
    let w := { w with nread := w.nread + 1 }
    match r.str.map removeNewlines, r.status with
    | some buf, .G_IO_STATUS_NORMAL =>
      match g_strrstr (cstr buf) TAB with
      | none => some (_error w)
      | some i =>
        let res := _set_key ((cstr buf).take i) ((cstr buf).drop (i + 1)) w
        if res.1 then some (true, res.2) else some (_error res.2)
    | some _, .G_IO_STATUS_AGAIN => _stdin fuel w
    | _, _ => some (_error w)

/-! ## The main loop and `main` -/

/-- What the main loop dispatches: a condition on a watched channel, a notification of
the store for an entry, or one of the trapped signals. -/
inductive Event where
  | io (s : Source)
  | notify (entry : GConfEntry)
  | signal

/-- One dispatch of the main loop. A condition whose source is no longer attached is not
dispatched; a callback that returns false has its source removed. -/
def dispatch (fuel : Nat) (ev : Event) (w : World) : Option World :=
  match ev with
  | .notify entry => some (_on_value_change entry w)
  | .signal => some (_on_sig w)
  | .io s =>
    if s ∈ w.sources then
      let r := if s = .in_IN ∨ s = .in_PRI then _stdin fuel w else some (_error w)
      r.map fun res =>
        if res.1 then res.2 else { res.2 with sources := res.2.sources.filter (fun t => t != s) }
    else some w

/-- The iterations of `g_main_loop_run` after the flag is set: events are dispatched one
per iteration while the loop is running; `none` when the events end before the loop is
asked to quit, or when a dispatch does not return. -/
def g_main_loop_iterate (fuel : Nat) : List Event → World → Option World
  | [], _ => none
  | ev :: evs, w =>
    match dispatch fuel ev w with
    | none => none
    | some w => if w.running then g_main_loop_iterate fuel evs w else some w

/-- The call `g_main_loop_run(loop)`. -/
def g_main_loop_run (fuel : Nat) (events : List Event) (w : World) : Option World :=
  g_main_loop_iterate fuel events { w with running := true }

/-- The outcomes of the set-up calls of `main`: whether each `signal` call returned
`SIG_ERR`, and the value each `setvbuf` call returned. -/
structure Setup where
  sighup_err : Bool
  sigpipe_err : Bool
  setvbuf_stdout : Int
  setvbuf_stdin : Int

/-- The loop of `main` over `argv[1..]`: a watch, a subscription and an initial
notification for every directory. -/
def addNotifications (dirs : List CString) (w : World) : World :=
  dirs.foldl (fun w dir => ((w.call (.add_dir dir)).call (.notify_add dir)).call (.notify dir)) w

/-- The function `main`: the exit code and the final state, `none` when the main loop does
not return. `argv` includes the program name. -/
def main (argv : List CString) (setup : Setup) (fuel : Nat) (events : List Event) (w : World) :
    Option (Int × World) :=
  if argv.length < 2 then some (1, w)
  else if setup.sighup_err || setup.sigpipe_err then
    some (2, { w with stderr := w.stderr ++ "Unable to trap signals!".toList })
  else if setup.setvbuf_stdout ≠ 0 then
    some (3, { w with stderr := w.stderr ++ "Unable to switch stdout to line buffering!".toList })
  else if setup.setvbuf_stdin ≠ 0 then
    some (4, { w with stderr := w.stderr ++ "Unable to switch stdin to line buffering!".toList })
  else
    let w := { w with sources := [.in_IN, .in_PRI, .in_ERR, .in_HUP, .out_ERR, .out_HUP] }
    let w := addNotifications (argv.drop 1) w
    (g_main_loop_run fuel events w).map fun w => (0, w)

/-- The store calls made by the loop of `main` over the directories, in order. -/
def notificationCalls : List CString → List StoreCall
  | [] => []
  | dir :: dirs => .add_dir dir :: .notify_add dir :: .notify dir :: notificationCalls dirs

/-! ## The flattened form of a value -/

/-- Whether a value is a String, an Int, a Float or a Bool. -/
def GConfValue.isScalar : GConfValue → Bool
  | .string _ => true
  | .int _ => true
  | .float _ => true
  | .bool _ => true
  | _ => false

/-- The rendering of a scalar: what its case of `_print_value` writes before the suffix. -/
def scalarText : GConfValue → CString
  | .string s => s
  | .int n => printf_d n
  | .float x => printf_f x
  | .bool b => if b then "true".toList else "false".toList
  | _ => []

/-- The texts joined by one `","` between consecutive texts. -/
def joinComma : List CString → CString
  | [] => []
  | [x] => x
  | x :: y :: rest => x ++ ',' :: joinComma (y :: rest)

mutual
/-- The renderings of the scalar leaves of a value, depth first and left to right. -/
def GConfValue.leaves : GConfValue → List CString
  | .string s => [scalarText (.string s)]
  | .int n => [scalarText (.int n)]
  | .float x => [scalarText (.float x)]
  | .bool b => [scalarText (.bool b)]
  | .list l => l.leaves
  | .pair car cdr => car.leaves ++ cdr.leaves
  | .schema => []
  | .invalid => []
/-- The leaves of the value behind a pointer, none for NULL. -/
def ValuePtr.leaves : ValuePtr → List CString
  | .null => []
  | .ptr v => v.leaves
/-- The leaves of the elements of a list, in list order. -/
def GSList.leaves : GSList → List CString
  | .nil => []
  | .cons data next => data.leaves ++ next.leaves
end

mutual
/-- Whether a value is built from scalars, Pairs and non-empty Lists with no absent
member. -/
def GConfValue.isNested : GConfValue → Bool
  | .string _ => true
  | .int _ => true
  | .float _ => true
  | .bool _ => true
  | .list .nil => false
  | .list (.cons data next) => data.isNested && next.isNested
  | .pair car cdr => car.isNested && cdr.isNested
  | .schema => false
  | .invalid => false
/-- Whether a pointer is not NULL and its value is nested. -/
def ValuePtr.isNested : ValuePtr → Bool
  | .null => false
  | .ptr v => v.isNested
/-- Whether every element of a list is a nested value. -/
def GSList.isNested : GSList → Bool
  | .nil => true
  | .cons data next => data.isNested && next.isNested
end

/-! ## Integer texts -/

/-- The wording of the specification for an integer text: after optional leading white
space, the text is an optional sign, then at least one decimal digit, then a rest that
does not go on with a digit; `n` is the number the sign and the digits denote. -/
def IntPrefix (val : CString) (n : Int) : Prop :=
  ∃ ws sgn ds rest, val = ws ++ (sgn ++ (ds ++ rest)) ∧
    (∀ c ∈ ws, isspace c = true) ∧
    (sgn = [] ∨ sgn = ['-'] ∨ sgn = ['+']) ∧
    ds ≠ [] ∧ (∀ c ∈ ds, isdigit c = true) ∧
    (∀ c, rest.head? = some c → isdigit c = false) ∧
    n = if sgn = ['-'] then -(digitsVal 10 ds : Int) else (digitsVal 10 ds : Int)

/-! ## Example states -/

/-- A state at start: the store holds `v` under `key` and nothing else, it accepts writes
or rejects them all, and the input channel delivers the given lines, then end of file. -/
def exampleWorld (key : CString) (v : ValuePtr) (writable : Bool) (lines : List CString) :
    World :=
  { client := { value := fun k => if k = key then v else .null, writable := fun _ => writable }
    calls := []
    stdout := []
    stderr := []
    criticals := []
    reads := fun n =>
      match lines.get? n with
      | some l => { status := .G_IO_STATUS_NORMAL, str := some l }
      | none => { status := .G_IO_STATUS_EOF, str := none }
    nread := 0
    sources := [.in_IN, .in_PRI, .in_ERR, .in_HUP, .out_ERR, .out_HUP]
    running := true }

/-- A state at start with an empty store whose input channel reports the given outcomes in
order and then `last` for ever. -/
def exampleChannel (outcomes : List ReadLine) (last : ReadLine) : World :=
  { exampleWorld [] .null true [] with reads := fun n => (outcomes.get? n).getD last }

theorem g_strrstr_eq_none_iff (s : CString) (c : Char) : g_strrstr s c = none ↔ c ∉ s := by
  induction s with
  | nil => simp [g_strrstr]
  | cons x xs ih =>
    unfold g_strrstr
    cases h : g_strrstr xs c with
    | some i =>
      have : ¬ c ∉ xs := fun hn => by simp [ih.mpr hn] at h
      simp only [List.mem_cons, not_or]
      constructor
      · intro h'; cases h'
      · intro h'; exact absurd h'.2 this
    | none =>
      have hx : c ∉ xs := ih.mp h
      by_cases hc : x = c
      · subst hc; simp
      · have hc' : ¬ c = x := fun e => hc e.symm
        simp [hc, hc', hx]

theorem g_strrstr_split (s : CString) (c : Char) (i : Nat) (h : g_strrstr s c = some i) :
    s = s.take i ++ c :: s.drop (i + 1) ∧ c ∉ s.drop (i + 1) := by
  induction s generalizing i with
  | nil => simp [g_strrstr] at h
  | cons x xs ih =>
    unfold g_strrstr at h
    cases hx : g_strrstr xs c with
    | some j =>
      simp only [hx, Option.some.injEq] at h
      subst h
      obtain ⟨h1, h2⟩ := ih j hx
      refine ⟨?_, by simpa using h2⟩
      simp only [List.take_succ_cons, List.drop_succ_cons, List.cons_append]
      exact congrArg _ h1
    | none =>
      simp only [hx] at h
      by_cases hc : x = c
      · subst hc
        simp at h
        subst h
        simpa using (g_strrstr_eq_none_iff xs x).mp hx
      · simp [hc] at h

theorem g_strrstr_append (k v : CString) (c : Char) (h : c ∉ v) :
    g_strrstr (k ++ c :: v) c = some k.length := by
  induction k with
  | nil =>
    simp only [List.nil_append, List.length_nil]
    unfold g_strrstr
    simp [(g_strrstr_eq_none_iff v c).mpr h]
  | cons x xs ih =>
    simp only [List.cons_append, List.length_cons]
    unfold g_strrstr
    simp [ih]

theorem cstr_removeNewlines_line (l rest : CString) (h0 : NUL ∉ l) (hn : NL ∉ l) :
    cstr (removeNewlines (l ++ NL :: rest)) = l := by
  induction l with
  | nil => simp [removeNewlines, cstr, NL, NUL]
  | cons x xs ih =>
    simp only [List.mem_cons, not_or] at h0 hn
    have hx0 : ¬ x = NUL := fun e => h0.1 e.symm
    have hxn : ¬ x = NL := fun e => hn.1 e.symm
    simp only [List.cons_append, removeNewlines, cstr] at ih ⊢
    simp [hx0, hxn, ih h0.2 hn.2]


theorem stdin_normal (fuel : Nat) (w : World) (buf : CString)
    (hr : w.reads w.nread = ⟨.G_IO_STATUS_NORMAL, some buf⟩) :
    _stdin (fuel + 1) w =
      match g_strrstr (cstr (removeNewlines buf)) TAB with
      | none => some (_error { w with nread := w.nread + 1 })
      | some i =>
        let res := _set_key ((cstr (removeNewlines buf)).take i)
          ((cstr (removeNewlines buf)).drop (i + 1)) { w with nread := w.nread + 1 }
        if res.1 then some (true, res.2) else some (_error res.2) := by
  simp only [_stdin, hr, Option.map]

theorem stdin_line (fuel : Nat) (w : World) (key val : CString)
    (hk0 : NUL ∉ key) (hkn : NL ∉ key) (hv0 : NUL ∉ val) (hvn : NL ∉ val) (hvt : TAB ∉ val)
    (hr : w.reads w.nread = ⟨.G_IO_STATUS_NORMAL, some (key ++ TAB :: val ++ [NL])⟩) :
    _stdin (fuel + 1) w =
      (if (_set_key key val { w with nread := w.nread + 1 }).1
       then some (true, (_set_key key val { w with nread := w.nread + 1 }).2)
       else some (_error (_set_key key val { w with nread := w.nread + 1 }).2)) := by
  have hl : cstr (removeNewlines (key ++ TAB :: val ++ [NL])) = key ++ TAB :: val := by
    have h1 : ¬ NUL = TAB := by decide
    have h2 : ¬ NL = TAB := by decide
    have := cstr_removeNewlines_line (key ++ TAB :: val) [] (by simp [hk0, hv0, h1])
      (by simp [hkn, hvn, h2])
    simpa using this
  rw [stdin_normal fuel w _ hr, hl, g_strrstr_append key val TAB hvt]
  simp

theorem addNotifications_eq (dirs : List CString) (w : World) :
    addNotifications dirs w = { w with calls := w.calls ++ notificationCalls dirs } := by
  induction dirs generalizing w with
  | nil => simp [addNotifications, notificationCalls]
  | cons d ds ih =>
    simp only [addNotifications, List.foldl_cons] at ih ⊢
    rw [ih]
    simp [World.call, notificationCalls]

theorem set_key_calls_aux (key val : CString) (w : World) :
    ∃ rest, (_set_key key val w).2.calls = w.calls ++ .get key :: rest := by
  unfold _set_key
  cases hv : w.client.value key with
  | null =>
    simp only [gconf_client_set_string, World.call]
    split <;> exact ⟨_, by simp; rfl⟩
  | ptr v =>
    cases v <;> simp only [GConfValue.type, gconf_client_set_string, gconf_client_set_int,
      gconf_client_set_float, World.call]
    all_goals (repeat' split)
    all_goals exact ⟨_, by simp; rfl⟩

theorem set_key_calls (key val : CString) (w : World) :
    ∃ r rest,
      (if (_set_key key val w).1 then some (true, (_set_key key val w).2)
        else some (_error (_set_key key val w).2)) = some r ∧
      r.2.calls = w.calls ++ .get key :: rest := by
  obtain ⟨rest, h⟩ := set_key_calls_aux key val w
  by_cases hb : (_set_key key val w).1 = true
  · exact ⟨(true, (_set_key key val w).2), rest, by rw [if_pos hb], h⟩
  · exact ⟨_error (_set_key key val w).2, rest, by rw [if_neg hb], by simpa [_error] using h⟩

/-! ## Lemmas on serialisation -/

theorem joinComma_cons (x : CString) (xs : List CString) (h : xs ≠ []) :
    joinComma (x :: xs) = x ++ ',' :: joinComma xs := by
  cases xs with
  | nil => exact absurd rfl h
  | cons y ys => rfl

theorem joinComma_append (xs ys : List CString) (hx : xs ≠ []) (hy : ys ≠ []) :
    joinComma (xs ++ ys) = joinComma xs ++ ',' :: joinComma ys := by
  induction xs with
  | nil => exact absurd rfl hx
  | cons x xs ih =>
    cases xs with
    | nil => simpa [joinComma] using joinComma_cons x ys hy
    | cons y r =>
      have := ih (by simp)
      simp only [List.cons_append] at this ⊢
      rw [joinComma_cons x (y :: (r ++ ys)) (by simp), this, joinComma_cons x (y :: r) (by simp)]
      simp

theorem print_scalar (v : GConfValue) (t : CString) (h : v.isScalar = true) :
    (_print_value (.ptr v) t).1 = scalarText v ++ t := by
  cases v <;> simp [GConfValue.isScalar] at h <;> simp [_print_value, _print_value.switch, scalarText]
  split <;> simp

mutual
theorem print_nested_value (v : GConfValue) (h : v.isNested = true) :
    v.leaves ≠ [] ∧ ∀ t, (_print_value.switch v t).1 = joinComma v.leaves ++ t := by
  cases v with
  | string s => simp [GConfValue.leaves, _print_value.switch, scalarText, joinComma]
  | int n => simp [GConfValue.leaves, _print_value.switch, scalarText, joinComma]
  | float x => simp [GConfValue.leaves, _print_value.switch, scalarText, joinComma]
  | bool b => cases b <;> simp [GConfValue.leaves, _print_value.switch, scalarText, joinComma]
  | list l =>
    cases l with
    | nil => simp [GConfValue.isNested] at h
    | cons data next =>
      have h' : (GSList.cons data next).isNested = true := by
        simpa [GConfValue.isNested, GSList.isNested] using h
      have := print_nested_list (.cons data next) h' (by simp)
      simpa [GConfValue.leaves, _print_value.switch] using this
  | pair car cdr =>
    simp only [GConfValue.isNested, Bool.and_eq_true] at h
    obtain ⟨ha, hpa⟩ := print_nested_ptr car h.1
    obtain ⟨hb, hpb⟩ := print_nested_ptr cdr h.2
    refine ⟨by simp [GConfValue.leaves, ha], fun t => ?_⟩
    simp only [_print_value.switch, GConfValue.leaves, hpa, hpb, joinComma_append _ _ ha hb]
    simp
  | schema => simp [GConfValue.isNested] at h
  | invalid => simp [GConfValue.isNested] at h
theorem print_nested_ptr (p : ValuePtr) (h : p.isNested = true) :
    p.leaves ≠ [] ∧ ∀ t, (_print_value p t).1 = joinComma p.leaves ++ t := by
  cases p with
  | null => simp [ValuePtr.isNested] at h
  | ptr v =>
    have := print_nested_value v (by simpa [ValuePtr.isNested] using h)
    simpa [ValuePtr.leaves, _print_value] using this
theorem print_nested_list (l : GSList) (h : l.isNested = true) (hne : l ≠ .nil) :
    l.leaves ≠ [] ∧ ∀ t, (_print_value.loop l t).1 = joinComma l.leaves ++ t := by
  cases l with
  | nil => exact absurd rfl hne
  | cons data next =>
    simp only [GSList.isNested, Bool.and_eq_true] at h
    obtain ⟨ha, hpa⟩ := print_nested_ptr data h.1
    refine ⟨by simp [GSList.leaves, ha], fun t => ?_⟩
    cases next with
    | nil => simp [_print_value.loop, GSList.leaves, hpa]
    | cons d n =>
      obtain ⟨hb, hpb⟩ := print_nested_list (.cons d n) h.2 (by simp)
      simp only [_print_value.loop, GSList.leaves] at hpb ⊢
      simp only [hpa, hpb]
      rw [joinComma_append _ _ ha (by simpa [GSList.leaves] using hb)]
      simp
end

/-! ## The output of a notification -/

/-- C1 (the code departs from it): for a notification whose value is absent,
`_on_value_change` writes the key and one TAB and nothing else; the newline of the line
`key TAB newline` is not written. -/
theorem C1_absent_value_writes_no_newline (key : CString) (w : World) :
    (_on_value_change ⟨key, .null⟩ w).stdout = w.stdout ++ (key ++ [TAB]) ∧
    (_on_value_change ⟨key, .null⟩ w).stdout ≠ w.stdout ++ (key ++ [TAB, NL]) ∧
    (_on_value_change ⟨"key".toList, .null⟩ { w with stdout := [] }).stdout = "key\t".toList := by
  refine ⟨by simp [_on_value_change, _print_value], ?_, by simp [_on_value_change, _print_value, TAB]⟩
  simp [_on_value_change, _print_value]

/-! ## Failed writes -/

/-- C2, counterexample: the store holds the Int 7 under `key` and the input delivers
`key TAB notanumber` and then `key TAB 42`. The handler returns false with the loop asked to
quit, and the loop run over two input events makes one read and leaves the Int 7. -/
theorem C2_counterexample :
    (∃ w, _stdin 1 (exampleWorld "key".toList (.ptr (.int 7)) true
        ["key\tnotanumber\n".toList, "key\t42\n".toList]) = some (false, w) ∧ w.running = false) ∧
    (∃ w, g_main_loop_run 1 [.io .in_IN, .io .in_IN]
        (exampleWorld "key".toList (.ptr (.int 7)) true
          ["key\tnotanumber\n".toList, "key\t42\n".toList]) = some w ∧
      w.nread = 1 ∧ w.client.value "key".toList = .ptr (.int 7)) :=
  ⟨⟨_, rfl, rfl⟩, ⟨_, rfl, rfl, rfl⟩⟩

/-- C2, amended: for a key whose current type is Int, a line whose value text has no
integer prefix, or whose write the store rejects, makes `_stdin` ask the loop to quit and
return false, with the store and the output unchanged, and the loop dispatches no later
event; no setter is called when the text has no integer prefix. -/
theorem C2_int_write_failure_ends_input (fuel : Nat) (w : World) (key val : CString) (n : Int)
    (evs : List Event)
    (hk0 : NUL ∉ key) (hkn : NL ∉ key) (hv0 : NUL ∉ val) (hvn : NL ∉ val) (hvt : TAB ∉ val)
    (hr : w.reads w.nread = ⟨.G_IO_STATUS_NORMAL, some (key ++ TAB :: val ++ [NL])⟩)
    (ht : w.client.value key = .ptr (.int n)) (hin : .in_IN ∈ w.sources)
    (hfail : sscanf_d val = none ∨ w.client.writable key = false) :
    _stdin (fuel + 1) w = some (false,
      { w with nread := w.nread + 1, running := false,
               calls := w.calls ++ .get key ::
                 (match sscanf_d val with
                  | none => []
                  | some m => [.set_int key m]) }) ∧
    g_main_loop_run (fuel + 1) (.io .in_IN :: evs) w = some
      { w with nread := w.nread + 1, running := false,
               calls := w.calls ++ .get key ::
                 (match sscanf_d val with
                  | none => []
                  | some m => [.set_int key m]),
               sources := w.sources.filter (fun t => t != .in_IN) } := by
  have hs := stdin_line fuel w key val hk0 hkn hv0 hvn hvt hr
  have hr' : ({ w with running := true } : World).reads ({ w with running := true } : World).nread
      = ⟨.G_IO_STATUS_NORMAL, some (key ++ TAB :: val ++ [NL])⟩ := hr
  have h2 := stdin_line fuel { w with running := true } key val hk0 hkn hv0 hvn hvt hr'
  simp only [g_main_loop_run, g_main_loop_iterate, dispatch, hin, if_true, true_or, h2, hs]
  cases hsc : sscanf_d val with
  | none => simp [_set_key, ht, GConfValue.type, hsc, _error, World.call]
  | some m =>
    have hw : w.client.writable key = false := by
      cases hfail with
      | inl h => rw [hsc] at h; cases h
      | inr h => exact h
    simp [_set_key, ht, GConfValue.type, hsc, _error, World.call, gconf_client_set_int, hw]

/-- C2, amended, at the line `key TAB notanumber` followed by `key TAB 42`, with the Int 7
stored under `key`. -/
theorem C2_int_write_failure_ends_input_witness :
    sscanf_d "notanumber".toList = none ∧
    _stdin 1 (exampleWorld "key".toList (.ptr (.int 7)) true
        ["key\tnotanumber\n".toList, "key\t42\n".toList]) = some (false,
      { exampleWorld "key".toList (.ptr (.int 7)) true
          ["key\tnotanumber\n".toList, "key\t42\n".toList] with
        nread := 1, running := false, calls := [.get "key".toList] }) ∧
    g_main_loop_run 1 [.io .in_IN, .io .in_IN] (exampleWorld "key".toList (.ptr (.int 7)) true
        ["key\tnotanumber\n".toList, "key\t42\n".toList]) = some
      { exampleWorld "key".toList (.ptr (.int 7)) true
          ["key\tnotanumber\n".toList, "key\t42\n".toList] with
        nread := 1, running := false, calls := [.get "key".toList],
        sources := [.in_PRI, .in_ERR, .in_HUP, .out_ERR, .out_HUP] } :=
  ⟨by decide,
   C2_int_write_failure_ends_input 0
    (exampleWorld "key".toList (.ptr (.int 7)) true
      ["key\tnotanumber\n".toList, "key\t42\n".toList])
    "key".toList "notanumber".toList 7 [.io .in_IN] (by decide) (by decide) (by decide)
    (by decide) (by decide) rfl rfl (by decide) (Or.inl (by decide))⟩

/-! ## Round trip of scalars -/

/-- C3 (the code departs from it): a Bool key written with the text `true` does not keep
its type and value. With the Bool false stored under `key`, the line `key TAB true` stores
the Float 1.0, and the notification for the key prints `key TAB 1.000000`, while the value
Bool true prints as `key TAB true`. -/
theorem C3_bool_round_trip_stores_float :
    ∃ w, _stdin 1 (exampleWorld "key".toList (.ptr (.bool false)) true ["key\ttrue\n".toList])
        = some (true, w) ∧
      w.client.value "key".toList = .ptr (.float (double_of_int 1)) ∧
      (_on_value_change ⟨"key".toList, w.client.value "key".toList⟩ w).stdout
        = "key\t1.000000\n".toList ∧
      (_on_value_change ⟨"key".toList, .ptr (.bool true)⟩ w).stdout = "key\ttrue\n".toList :=
  ⟨_, rfl, rfl, by decide, by decide⟩

/-! ## Serialisation of lists and nested values -/

/-- C4: serialising a non-empty list of scalars writes the renderings of the elements in
list order, one `","` between consecutive elements, and the terminator once at the end. -/
theorem C4_list_of_scalars (vs : List GConfValue) (t : CString) (hne : vs ≠ [])
    (hs : ∀ v ∈ vs, v.isScalar = true) :
    (_print_value (.ptr (.list (GSList.ofList (vs.map .ptr)))) t).1
      = joinComma (vs.map scalarText) ++ t := by
  simp only [_print_value, _print_value.switch]
  induction vs with
  | nil => exact absurd rfl hne
  | cons v vs ih =>
    have hv := hs v (by simp)
    cases vs with
    | nil =>
      simp only [List.map, GSList.ofList, _print_value.loop, joinComma]
      rw [print_scalar v t hv]
      simp
    | cons u us =>
      have := ih (by simp) (fun x hx => hs x (by simp [List.mem_cons] at hx ⊢; exact Or.inr hx))
      simp only [List.map, GSList.ofList, _print_value.loop, joinComma] at this ⊢
      rw [print_scalar v _ hv, this]
      simp

/-- C4 at the list of the Ints 1, 2, 3 with the terminator newline: the text `1,2,3` and a
newline. -/
theorem C4_list_of_scalars_witness :
    [GConfValue.int 1, .int 2, .int 3] ≠ [] ∧
    (_print_value (.ptr (.list (.cons (.ptr (.int 1)) (.cons (.ptr (.int 2))
        (.cons (.ptr (.int 3)) .nil))))) "\n".toList).1 = "1,2,3\n".toList :=
  ⟨by simp, C4_list_of_scalars [.int 1, .int 2, .int 3] "\n".toList (by simp)
    (by intro v hv; simp at hv; rcases hv with h | h | h <;> subst h <;> rfl)⟩

/-- C5: serialising a value built from scalars, Pairs and non-empty Lists with no absent
member writes the renderings of its scalar leaves, depth first and left to right, joined by
`","`, and the terminator once at the end. -/
theorem C5_nested_values_flatten (v : GConfValue) (t : CString) (h : v.isNested = true) :
    (_print_value (.ptr v) t).1 = joinComma v.leaves ++ t := by
  have := (print_nested_value v h).2 t
  simpa [_print_value] using this

/-- C5 at List[Pair(Int 1, Int 2), Int 3] with the terminator newline: the text `1,2,3` and
a newline. -/
theorem C5_nested_values_flatten_witness :
    (GConfValue.list (.cons (.ptr (.pair (.ptr (.int 1)) (.ptr (.int 2))))
        (.cons (.ptr (.int 3)) .nil))).isNested = true ∧
    (_print_value (.ptr (.list (.cons (.ptr (.pair (.ptr (.int 1)) (.ptr (.int 2))))
        (.cons (.ptr (.int 3)) .nil)))) "\n".toList).1 = "1,2,3\n".toList :=
  ⟨by decide, C5_nested_values_flatten _ "\n".toList (by decide)⟩

/-! ## The input path -/

/-- C6: a line without a TAB makes `_stdin` return false with the loop asked to quit and
with no call made on the store; `main`, set up without failure, then ends with exit code 0
after this one read, whatever events follow. -/
theorem C6_line_without_tab_terminates (fuel : Nat) (w : World) (buf : CString)
    (argv : List CString) (setup : Setup) (evs : List Event)
    (hr : w.reads w.nread = ⟨.G_IO_STATUS_NORMAL, some buf⟩)
    (htab : TAB ∉ cstr (removeNewlines buf))
    (hargc : 2 ≤ argv.length) (h1 : setup.sighup_err = false) (h2 : setup.sigpipe_err = false)
    (h3 : setup.setvbuf_stdout = 0) (h4 : setup.setvbuf_stdin = 0) :
    _stdin (fuel + 1) w = some (false, { w with nread := w.nread + 1, running := false }) ∧
    main argv setup (fuel + 1) (.io .in_IN :: evs) w = some (0,
      { w with calls := w.calls ++ notificationCalls (argv.drop 1),
               nread := w.nread + 1, running := false,
               sources := [.in_PRI, .in_ERR, .in_HUP, .out_ERR, .out_HUP] }) := by
  have hnone := (g_strrstr_eq_none_iff _ TAB).mpr htab
  constructor
  · rw [stdin_normal fuel w buf hr, hnone]
    rfl
  · have hlt : ¬ argv.length < 2 := by omega
    simp only [main, hlt, h1, h2, h3, h4, if_false, Bool.or_self, Bool.false_eq_true,
      ne_eq, not_true_eq_false, g_main_loop_run, g_main_loop_iterate, dispatch,
      addNotifications_eq]
    have hs := stdin_normal fuel
      { w with calls := w.calls ++ notificationCalls (argv.drop 1),
               sources := [.in_IN, .in_PRI, .in_ERR, .in_HUP, .out_ERR, .out_HUP],
               running := true } buf hr
    rw [hnone] at hs
    rw [hs]
    simp [_error]

/-- C6 at the line `novalueline`, with one directory argument and two more input events. -/
theorem C6_line_without_tab_terminates_witness :
    TAB ∉ cstr (removeNewlines "novalueline\n".toList) ∧
    _stdin 1 (exampleWorld "key".toList .null true ["novalueline\n".toList, "key\t42\n".toList])
      = some (false,
        { exampleWorld "key".toList .null true ["novalueline\n".toList, "key\t42\n".toList] with
          nread := 1, running := false }) ∧
    main ["pxgconf".toList, "/system/proxy".toList] ⟨false, false, 0, 0⟩ 1
        [.io .in_IN, .io .in_IN, .io .in_IN]
        (exampleWorld "key".toList .null true ["novalueline\n".toList, "key\t42\n".toList])
      = some (0,
        { exampleWorld "key".toList .null true ["novalueline\n".toList, "key\t42\n".toList] with
          calls := [.add_dir "/system/proxy".toList, .notify_add "/system/proxy".toList,
                    .notify "/system/proxy".toList],
          nread := 1, running := false,
          sources := [.in_PRI, .in_ERR, .in_HUP, .out_ERR, .out_HUP] }) :=
  ⟨by decide,
   C6_line_without_tab_terminates 0
    (exampleWorld "key".toList .null true ["novalueline\n".toList, "key\t42\n".toList])
    "novalueline\n".toList ["pxgconf".toList, "/system/proxy".toList] ⟨false, false, 0, 0⟩
    [.io .in_IN, .io .in_IN] rfl (by decide) (by decide) rfl rfl rfl rfl⟩

/-- C7: a line that contains a TAB is cut at its last TAB. There are a key and a value
with line = key, TAB, value, the value free of TAB, such that `_stdin` is the write
`_set_key key value`; the first call the write makes on the store is the read of `key`. -/
theorem C7_split_on_last_tab (fuel : Nat) (w : World) (buf : CString)
    (hr : w.reads w.nread = ⟨.G_IO_STATUS_NORMAL, some buf⟩)
    (htab : TAB ∈ cstr (removeNewlines buf)) :
    ∃ key val, cstr (removeNewlines buf) = key ++ TAB :: val ∧ TAB ∉ val ∧
      _stdin (fuel + 1) w =
        (if (_set_key key val { w with nread := w.nread + 1 }).1
         then some (true, (_set_key key val { w with nread := w.nread + 1 }).2)
         else some (_error (_set_key key val { w with nread := w.nread + 1 }).2)) ∧
      ∃ r rest, _stdin (fuel + 1) w = some r ∧ r.2.calls = w.calls ++ .get key :: rest := by
  cases hg : g_strrstr (cstr (removeNewlines buf)) TAB with
  | none => exact absurd htab ((g_strrstr_eq_none_iff _ TAB).mp hg)
  | some i =>
    obtain ⟨hsplit, hno⟩ := g_strrstr_split _ TAB i hg
    have hs : _stdin (fuel + 1) w = _ := stdin_normal fuel w buf hr
    rw [hg] at hs
    refine ⟨_, _, hsplit, hno, hs, ?_⟩
    rw [hs]
    exact set_key_calls _ _ _

/-- C7 at the line `a TAB b TAB c`: the key is `a TAB b` and the value is `c`. -/
theorem C7_split_on_last_tab_witness :
    TAB ∈ cstr (removeNewlines "a\tb\tc\n".toList) ∧
    ∃ key val, cstr (removeNewlines "a\tb\tc\n".toList) = key ++ TAB :: val ∧ TAB ∉ val ∧
      _stdin 1 (exampleWorld "key".toList .null true ["a\tb\tc\n".toList]) =
        (if (_set_key key val
              { exampleWorld "key".toList .null true ["a\tb\tc\n".toList] with nread := 1 }).1
         then some (true, (_set_key key val
              { exampleWorld "key".toList .null true ["a\tb\tc\n".toList] with nread := 1 }).2)
         else some (_error (_set_key key val
              { exampleWorld "key".toList .null true ["a\tb\tc\n".toList] with nread := 1 }).2)) ∧
      ∃ r rest, _stdin 1 (exampleWorld "key".toList .null true ["a\tb\tc\n".toList]) = some r ∧
        r.2.calls = [] ++ .get key :: rest :=
  ⟨by decide,
   C7_split_on_last_tab 0 (exampleWorld "key".toList .null true ["a\tb\tc\n".toList])
    "a\tb\tc\n".toList rfl (by decide)⟩

/-- C8: for a key that has no value in the store, the line key, TAB, v makes `_stdin` read
the key and call the string setter with (key, v) and make no other call; when the store
accepts the write the handler returns true and the key holds the String v. -/
theorem C8_unset_key_defaults_to_string (fuel : Nat) (w : World) (key v : CString)
    (hk0 : NUL ∉ key) (hkn : NL ∉ key) (hv0 : NUL ∉ v) (hvn : NL ∉ v) (hvt : TAB ∉ v)
    (hr : w.reads w.nread = ⟨.G_IO_STATUS_NORMAL, some (key ++ TAB :: v ++ [NL])⟩)
    (hu : w.client.value key = .null) :
    ∃ r, _stdin (fuel + 1) w = some r ∧
      r.2.calls = w.calls ++ [.get key, .set_string key v] ∧
      (w.client.writable key = true →
        r.1 = true ∧ r.2.client.value key = .ptr (.string v) ∧ r.2.running = w.running) := by
  rw [stdin_line fuel w key v hk0 hkn hv0 hvn hvt hr]
  by_cases hw : w.client.writable key = true
  · simp [_set_key, hu, gconf_client_set_string, World.call, hw, GConfClient.store]
  · simp [_set_key, hu, gconf_client_set_string, World.call, hw, _error]

/-- C8 at the line `newkey TAB hello`, the store holding nothing under `newkey`. -/
theorem C8_unset_key_defaults_to_string_witness :
    (exampleWorld "key".toList (.ptr (.int 7)) true ["newkey\thello\n".toList]).client.value
      "newkey".toList = .null ∧
    ∃ r, _stdin 1 (exampleWorld "key".toList (.ptr (.int 7)) true ["newkey\thello\n".toList])
        = some r ∧
      r.2.calls = [] ++ [.get "newkey".toList, .set_string "newkey".toList "hello".toList] ∧
      (true = true →
        r.1 = true ∧ r.2.client.value "newkey".toList = .ptr (.string "hello".toList) ∧
        r.2.running = true) :=
  ⟨rfl,
   C8_unset_key_defaults_to_string 0
    (exampleWorld "key".toList (.ptr (.int 7)) true ["newkey\thello\n".toList])
    "newkey".toList "hello".toList (by decide) (by decide) (by decide) (by decide) (by decide)
    rfl rfl⟩

/-! ## Typed writes -/

/-- C9 (the code departs from it): for a key whose current type is Bool, `_set_key` calls
the Float setter, with 1.0 when the text is `true` and 0.0 otherwise, and never a Bool
setter; with the Bool true stored under `key`, the line `key TAB true` leaves the Float 1.0
under the key. -/
theorem C9_bool_write_calls_float_setter (w : World) (key val : CString) (b : Bool) :
    (_set_key key val { w with client := w.client.store key (.bool b) }).2.calls
      = w.calls ++ [.get key,
          .set_float key (double_of_int (if val = "true".toList then 1 else 0))] ∧
    ∃ w', _stdin 1 (exampleWorld "key".toList (.ptr (.bool true)) true ["key\ttrue\n".toList])
        = some (true, w') ∧
      w'.calls = [.get "key".toList, .set_float "key".toList 0x3FF0000000000000] ∧
      w'.client.value "key".toList = .ptr (.float 0x3FF0000000000000) := by
  constructor
  · simp only [_set_key, GConfClient.store, if_true, GConfValue.type, gconf_client_set_float,
      World.call]
    split <;> simp
  · exact ⟨_, rfl, rfl, rfl⟩

/-- C10 (the code departs from it): with a Float stored under `key`, the line
`key TAB 1.5` calls the Float setter with 1069547520.0, the bit pattern 0x3FC00000 of the
float 1.5 read as an integer, and the notification prints `key TAB 1069547520.000000`; the
double 1.5 prints as `1.500000`. -/
theorem C10_float_write_stores_bit_pattern :
    sscanf_f "1.5".toList = some 0x3FC00000 ∧
    int_of_bits 0x3FC00000 = 1069547520 ∧
    printf_f 0x3FF8000000000000 = "1.500000".toList ∧
    ∃ w, _stdin 1 (exampleWorld "key".toList (.ptr (.float 0)) true ["key\t1.5\n".toList])
        = some (true, w) ∧
      w.calls = [.get "key".toList, .set_float "key".toList (double_of_int 1069547520)] ∧
      (_on_value_change ⟨"key".toList, w.client.value "key".toList⟩ w).stdout
        = "key\t1069547520.000000\n".toList :=
  ⟨by decide, by decide, by decide, _, rfl, rfl, by decide⟩

/-! ## Lemmas on the returned count -/

theorem wrap32_of_nonneg_lt (n : Int) (h0 : 0 ≤ n) (h1 : n < 2 ^ 31) : wrap32 n = n := by
  unfold wrap32
  norm_num at h1 ⊢
  omega

theorem printf_ret_of_lt (text : CString) (h : text.length < 2 ^ 31) :
    printf_ret text = (text.length : Int) := by
  unfold printf_ret
  rw [if_pos h]

theorem length_append_lt (x y : CString) (h : (x ++ y).length < 2 ^ 31) :
    x.length < 2 ^ 31 ∧ y.length < 2 ^ 31 := by
  rw [List.length_append] at h
  omega

theorem wrap32_add_lengths (x y : CString) (h : (x ++ y).length < 2 ^ 31) :
    wrap32 ((x.length : Int) + (y.length : Int)) = ((x ++ y).length : Int) := by
  rw [List.length_append] at h ⊢
  rw [wrap32_of_nonneg_lt _ (by omega) (by norm_num at h ⊢; omega)]
  simp

mutual
theorem print_count_switch (v : GConfValue) (t : CString)
    (h : (_print_value.switch v t).1.length < 2 ^ 31) :
    (_print_value.switch v t).2 = ((_print_value.switch v t).1.length : Int) := by
  cases v with
  | string s => exact printf_ret_of_lt _ h
  | int n => exact printf_ret_of_lt _ h
  | float x => exact printf_ret_of_lt _ h
  | bool b =>
    cases b
    · exact printf_ret_of_lt _ h
    · exact printf_ret_of_lt _ h
  | list l => exact print_count_loop l t h
  | pair car cdr =>
    simp only [_print_value.switch] at h ⊢
    obtain ⟨ha, hb⟩ := length_append_lt _ _ h
    rw [print_count_ptr car [','] ha, print_count_ptr cdr t hb]
    exact wrap32_add_lengths _ _ h
  | schema => rfl
  | invalid => rfl
theorem print_count_ptr (p : ValuePtr) (t : CString)
    (h : (_print_value p t).1.length < 2 ^ 31) :
    (_print_value p t).2 = ((_print_value p t).1.length : Int) := by
  cases p with
  | null => rfl
  | ptr v => exact print_count_switch v t h
theorem print_count_loop (l : GSList) (t : CString)
    (h : (_print_value.loop l t).1.length < 2 ^ 31) :
    (_print_value.loop l t).2 = ((_print_value.loop l t).1.length : Int) := by
  cases l with
  | nil => rfl
  | cons data next =>
    simp only [_print_value.loop] at h ⊢
    obtain ⟨ha, hb⟩ := length_append_lt _ _ h
    rw [print_count_ptr data _ ha, print_count_loop next t hb]
    exact wrap32_add_lengths _ _ h
end

theorem wrap32_clampLong (n : Int) (h1 : -(2 ^ 31) ≤ n) (h2 : n < 2 ^ 31) :
    wrap32 (clampLong n) = n := by
  unfold wrap32 clampLong
  norm_num at h1 h2 ⊢
  split_ifs <;> omega

theorem digitChar_toNat (d : Nat) (h : d < 10) : (digitChar d).toNat = 48 + d := by
  interval_cases d <;> decide

theorem isdigit_digitChar (d : Nat) (h : d < 10) : isdigit (digitChar d) = true := by
  interval_cases d <;> decide

theorem xdigitVal_digitChar (d : Nat) (h : d < 10) : xdigitVal (digitChar d) = d := by
  interval_cases d <;> decide

theorem digitsVal_append (base : Nat) (xs : CString) (c : Char) :
    digitsVal base (xs ++ [c]) = base * digitsVal base xs + xdigitVal c := by
  simp [digitsVal, List.foldl_append]

theorem digitsAux_spec (fuel n : Nat) (h : n < fuel) :
    digitsVal 10 (digitsAux fuel n) = n ∧ digitsAux fuel n ≠ [] ∧
      ∀ c ∈ digitsAux fuel n, isdigit c = true := by
  induction fuel generalizing n with
  | zero => omega
  | succ f ih =>
    unfold digitsAux
    by_cases hn : n < 10
    · simp only [hn, if_true]
      refine ⟨?_, by simp, ?_⟩
      · simp [digitsVal, xdigitVal_digitChar n hn]
      · intro c hc
        simp only [List.mem_singleton] at hc
        rw [hc]
        exact isdigit_digitChar n hn
    · simp only [hn, if_false]
      obtain ⟨h1, _, h3⟩ := ih (n / 10) (by omega)
      have hm : n % 10 < 10 := Nat.mod_lt _ (by omega)
      refine ⟨?_, by simp, ?_⟩
      · rw [digitsVal_append, h1, xdigitVal_digitChar _ hm]
        omega
      · intro c hc
        rcases List.mem_append.mp hc with hc | hc
        · exact h3 c hc
        · simp only [List.mem_singleton] at hc
          rw [hc]
          exact isdigit_digitChar _ hm

theorem natDigits_spec (n : Nat) :
    digitsVal 10 (natDigits n) = n ∧ natDigits n ≠ [] ∧
      ∀ c ∈ natDigits n, isdigit c = true :=
  digitsAux_spec (n + 1) n (Nat.lt_succ_self n)

theorem dropWhile_append_all (p : Char → Bool) (ws x : CString) (h : ∀ c ∈ ws, p c = true) :
    (ws ++ x).dropWhile p = x.dropWhile p := by
  induction ws with
  | nil => rfl
  | cons a as ih =>
    have ha := h a (by simp)
    simp only [List.cons_append, List.dropWhile, ha]
    exact ih (fun c hc => h c (by simp [hc]))

theorem takeWhile_append_stop (p : Char → Bool) (ds rest : CString)
    (h : ∀ c ∈ ds, p c = true) (hr : ∀ c, rest.head? = some c → p c = false) :
    (ds ++ rest).takeWhile p = ds := by
  induction ds with
  | nil =>
    cases rest with
    | nil => rfl
    | cons r rs => simp [List.takeWhile, hr r rfl]
  | cons a as ih =>
    have ha := h a (by simp)
    have := ih (fun c hc => h c (by simp [hc]))
    simp [List.takeWhile_cons, ha, this]

theorem dropWhile_head (p : Char → Bool) (l : CString) :
    ∀ c, (l.dropWhile p).head? = some c → p c = false := by
  induction l with
  | nil => simp
  | cons a as ih =>
    intro c hc
    by_cases ha : p a = true
    · simp only [List.dropWhile, ha] at hc
      exact ih c hc
    · simp only [Bool.not_eq_true] at ha
      simp only [List.dropWhile, ha, List.head?_cons, Option.some.injEq] at hc
      rw [← hc]
      exact ha

theorem isdigit_not_space (c : Char) (h : isdigit c = true) :
    isspace c = false ∧ c ≠ '-' ∧ c ≠ '+' := by
  simp only [isdigit, Bool.and_eq_true, decide_eq_true_eq] at h
  refine ⟨?_, ?_, ?_⟩
  · simp only [isspace, Bool.or_eq_false_iff, beq_eq_false_iff_ne, ne_eq]
    refine ⟨⟨⟨⟨⟨?_, ?_⟩, ?_⟩, ?_⟩, ?_⟩, ?_⟩ <;> (intro e; rw [e] at h; revert h; decide)
  · intro e; rw [e] at h; revert h; decide
  · intro e; rw [e] at h; revert h; decide

theorem scanSign_digit (d : Char) (r : CString) (h : isdigit d = true) :
    scanSign (d :: r) = (false, d :: r) := by
  obtain ⟨_, h1, h2⟩ := isdigit_not_space d h
  unfold scanSign
  split
  · rename_i heq; injection heq with e _; exact absurd e h1
  · rename_i heq; injection heq with e _; exact absurd e h2
  · rfl

theorem sscanf_d_of_intPrefix (val : CString) (n : Int) (h : IntPrefix val n) :
    sscanf_d val = some (wrap32 (clampLong n)) := by
  obtain ⟨ws, sgn, ds, rest, hval, hws, hsgn, hne, hds, hrest, hn⟩ := h
  cases ds with
  | nil => exact absurd rfl hne
  | cons d ds' =>
    have hd := hds d (by simp)
    obtain ⟨hsp, _, _⟩ := isdigit_not_space d hd
    have htake := takeWhile_append_stop isdigit (d :: ds') rest hds hrest
    have hdrop : (sgn ++ (d :: ds' ++ rest)).dropWhile isspace = sgn ++ (d :: ds' ++ rest) := by
      rcases hsgn with hs | hs | hs <;> subst hs
      · simp [List.dropWhile_cons, hsp]
      · have : isspace '-' = false := by decide
        simp [List.dropWhile_cons, this]
      · have : isspace '+' = false := by decide
        simp [List.dropWhile_cons, this]
    have hsign : scanSign (sgn ++ (d :: ds' ++ rest))
        = (decide (sgn = ['-']), d :: ds' ++ rest) := by
      rcases hsgn with hs | hs | hs <;> subst hs
      · simpa using scanSign_digit d (ds' ++ rest) hd
      · simp [scanSign]
      · simp [scanSign]
    unfold sscanf_d
    rw [hval, dropWhile_append_all isspace ws _ hws, hdrop, hsign]
    simp only []
    rw [htake]
    simp [hn]

theorem scanSign_split (x : CString) :
    ∃ sgn, (sgn = [] ∨ sgn = ['-'] ∨ sgn = ['+']) ∧ x = sgn ++ (scanSign x).2 ∧
      (scanSign x).1 = decide (sgn = ['-']) := by
  unfold scanSign
  split
  · exact ⟨['-'], by simp, by simp, by simp⟩
  · exact ⟨['+'], by simp, by simp, by simp⟩
  · exact ⟨[], by simp, by simp, by simp⟩

theorem intPrefix_of_sscanf_d (val : CString) (m : Int) (h : sscanf_d val = some m) :
    ∃ n, IntPrefix val n := by
  unfold sscanf_d at h
  obtain ⟨sgn, hsgn, hx, _⟩ := scanSign_split (val.dropWhile isspace)
  cases hds : (scanSign (val.dropWhile isspace)).2.takeWhile isdigit with
  | nil => simp [hds] at h
  | cons d ds' =>
    refine ⟨_, val.takeWhile isspace, sgn, d :: ds',
      (scanSign (val.dropWhile isspace)).2.dropWhile isdigit, ?_, ?_, hsgn, by simp, ?_,
      dropWhile_head isdigit _, rfl⟩
    · rw [← hds, List.takeWhile_append_dropWhile, ← hx, List.takeWhile_append_dropWhile]
    · intro c hc
      exact (List.mem_takeWhile_imp hc)
    · intro c hc
      rw [← hds] at hc
      exact (List.mem_takeWhile_imp hc)

theorem intPrefix_printf_d (n : Int) : IntPrefix (printf_d n) n := by
  obtain ⟨h1, h2, h3⟩ := natDigits_spec n.natAbs
  unfold printf_d
  by_cases hn : n < 0
  · refine ⟨[], ['-'], natDigits n.natAbs, [], by simp [hn], by simp, by simp, h2, h3,
      by simp, ?_⟩
    simp only [if_true, h1]
    omega
  · refine ⟨[], [], natDigits n.natAbs, [], by simp [hn], by simp, by simp, h2, h3,
      by simp, ?_⟩
    have : ¬ (([] : CString) = ['-']) := by simp
    simp only [this, if_false, h1]
    omega

/-! ## Writes to composite keys -/

/-- C11: for a key whose current value is a List or a Pair, `_set_key` reports failure with
no setter called and the store unchanged, and `_stdin` then asks the loop to quit and
returns false. -/
theorem C11_composite_key_write_fails (fuel : Nat) (w : World) (key val : CString)
    (v : GConfValue)
    (hk0 : NUL ∉ key) (hkn : NL ∉ key) (hv0 : NUL ∉ val) (hvn : NL ∉ val) (hvt : TAB ∉ val)
    (hr : w.reads w.nread = ⟨.G_IO_STATUS_NORMAL, some (key ++ TAB :: val ++ [NL])⟩)
    (hv : w.client.value key = .ptr v)
    (ht : v.type = .GCONF_VALUE_LIST ∨ v.type = .GCONF_VALUE_PAIR) :
    _set_key key val w = (false,
      { w with calls := w.calls ++ [.get key],
               criticals := w.criticals ++ ["Invalid value type!".toList] }) ∧
    _stdin (fuel + 1) w = some (false,
      { w with nread := w.nread + 1, calls := w.calls ++ [.get key],
               criticals := w.criticals ++ ["Invalid value type!".toList],
               running := false }) := by
  have hs := stdin_line fuel w key val hk0 hkn hv0 hvn hvt hr
  rw [hs]
  cases v <;> simp [GConfValue.type] at ht <;>
    simp [_set_key, hv, GConfValue.type, World.call, _error]

/-- C11 at the line `key TAB x`, an empty List stored under `key`. -/
theorem C11_composite_key_write_fails_witness :
    (GConfValue.list .nil).type = .GCONF_VALUE_LIST ∧
    _set_key "key".toList "x".toList
        (exampleWorld "key".toList (.ptr (.list .nil)) true ["key\tx\n".toList]) = (false,
      { exampleWorld "key".toList (.ptr (.list .nil)) true ["key\tx\n".toList] with
        calls := [.get "key".toList], criticals := ["Invalid value type!".toList] }) ∧
    _stdin 1 (exampleWorld "key".toList (.ptr (.list .nil)) true ["key\tx\n".toList])
      = some (false,
      { exampleWorld "key".toList (.ptr (.list .nil)) true ["key\tx\n".toList] with
        nread := 1, calls := [.get "key".toList],
        criticals := ["Invalid value type!".toList], running := false }) :=
  ⟨rfl, C11_composite_key_write_fails 0
    (exampleWorld "key".toList (.ptr (.list .nil)) true ["key\tx\n".toList])
    "key".toList "x".toList (.list .nil) (by decide) (by decide) (by decide) (by decide)
    (by decide) rfl rfl (Or.inl rfl)⟩

/-! ## Writes to Int keys -/

/-- C12, counterexample: with an Int stored under `key`, the text `4294967297` has an
integer prefix whose value does not fit 32 bits, and the write succeeds with the Int setter
called, here with 1. -/
theorem C12_counterexample :
    IntPrefix "4294967297".toList 4294967297 ∧ ¬ ((4294967297 : Int) < 2 ^ 31) ∧
    (_set_key "key".toList "4294967297".toList
        (exampleWorld "key".toList (.ptr (.int 7)) true [])).1 = true ∧
    (_set_key "key".toList "4294967297".toList
        (exampleWorld "key".toList (.ptr (.int 7)) true [])).2.calls
      = [.get "key".toList, .set_int "key".toList 1] :=
  ⟨⟨[], [], "4294967297".toList, [], rfl, by simp, Or.inl rfl, by simp, by decide, by simp,
      by decide⟩,
    by decide, rfl, rfl⟩

/-- C12, amended: for a key whose current type is Int, a text with an integer prefix whose
value n fits a 32-bit signed integer calls the Int setter with (key, n), whatever follows
the digits; a text with an integer prefix of any value calls the Int setter, with the value
saturated to `long` and cut to 32 bits; a text with no integer prefix fails with no setter
called; and the decimal rendering of a 32-bit n sets n. -/
theorem C12_int_write (w : World) (key val : CString) (n0 : Int)
    (ht : w.client.value key = .ptr (.int n0)) :
    (∀ n, IntPrefix val n → -(2 ^ 31) ≤ n → n < 2 ^ 31 →
      _set_key key val w = gconf_client_set_int (w.call (.get key)) key n ∧
      (_set_key key val w).2.calls = w.calls ++ [.get key, .set_int key n]) ∧
    (∀ n, IntPrefix val n →
      (_set_key key val w).2.calls
        = w.calls ++ [.get key, .set_int key (wrap32 (clampLong n))]) ∧
    ((¬ ∃ n, IntPrefix val n) → _set_key key val w = (false, w.call (.get key))) ∧
    (∀ n : Int, -(2 ^ 31) ≤ n → n < 2 ^ 31 →
      _set_key key (printf_d n) w = gconf_client_set_int (w.call (.get key)) key n) := by
  have hset : ∀ v m, sscanf_d v = some m →
      _set_key key v w = gconf_client_set_int (w.call (.get key)) key m := by
    intro v m hm
    simp [_set_key, ht, GConfValue.type, hm]
  have hcalls : ∀ m, (gconf_client_set_int (w.call (.get key)) key m).2.calls
      = w.calls ++ [.get key, .set_int key m] := by
    intro m
    by_cases hw : w.client.writable key = true <;>
      simp [gconf_client_set_int, World.call, hw]
  refine ⟨fun n hp h1 h2 => ?_, fun n hp => ?_, fun hno => ?_, fun n h1 h2 => ?_⟩
  · have hm := sscanf_d_of_intPrefix val n hp
    rw [wrap32_clampLong n h1 h2] at hm
    rw [hset val n hm]
    exact ⟨rfl, hcalls n⟩
  · rw [hset val _ (sscanf_d_of_intPrefix val n hp)]
    exact hcalls _
  · cases hm : sscanf_d val with
    | none => simp [_set_key, ht, GConfValue.type, hm]
    | some m => exact absurd (intPrefix_of_sscanf_d val m hm) hno
  · have hm := sscanf_d_of_intPrefix _ n (intPrefix_printf_d n)
    rw [wrap32_clampLong n h1 h2] at hm
    exact hset _ n hm

/-- C12, amended, with the Int 7 stored under `key`: the text `42abc` sets 42, the text
`notanumber` fails with only the read of the key, and the rendering of -2147483648 sets
-2147483648. -/
theorem C12_int_write_witness :
    (_set_key "key".toList "42abc".toList
        (exampleWorld "key".toList (.ptr (.int 7)) true [])
      = gconf_client_set_int
          ((exampleWorld "key".toList (.ptr (.int 7)) true []).call (.get "key".toList))
          "key".toList 42 ∧
      (_set_key "key".toList "42abc".toList
        (exampleWorld "key".toList (.ptr (.int 7)) true [])).2.calls
        = [.get "key".toList, .set_int "key".toList 42]) ∧
    _set_key "key".toList "notanumber".toList
        (exampleWorld "key".toList (.ptr (.int 7)) true [])
      = (false,
          (exampleWorld "key".toList (.ptr (.int 7)) true []).call (.get "key".toList)) ∧
    _set_key "key".toList (printf_d (-2147483648))
        (exampleWorld "key".toList (.ptr (.int 7)) true [])
      = gconf_client_set_int
          ((exampleWorld "key".toList (.ptr (.int 7)) true []).call (.get "key".toList))
          "key".toList (-2147483648) :=
  ⟨(C12_int_write (exampleWorld "key".toList (.ptr (.int 7)) true []) "key".toList
      "42abc".toList 7 rfl).1 42
      ⟨[], [], "42".toList, "abc".toList, rfl, by simp, Or.inl rfl, by simp, by decide,
        by decide, by decide⟩ (by decide) (by decide),
   (C12_int_write (exampleWorld "key".toList (.ptr (.int 7)) true []) "key".toList
      "notanumber".toList 7 rfl).2.2.1 (fun ⟨n, h⟩ => by
        have h1 := sscanf_d_of_intPrefix _ n h
        have h2 : sscanf_d "notanumber".toList = none := by decide
        rw [h2] at h1
        cases h1),
   (C12_int_write (exampleWorld "key".toList (.ptr (.int 7)) true []) "key".toList
      "42abc".toList 7 rfl).2.2.2 (-2147483648) (by decide) (by decide)⟩

/-! ## Serialisation of pairs and of empty values -/

/-- C13: serialising Pair(a, b) with the terminator t writes the serialisation of a with
the terminator `","` followed by the serialisation of b with the terminator t, and returns
the `int` sum of the two counts; Pair(String a, Int 5) with a newline gives `a,5` and a
newline. -/
theorem C13_pair_serialisation (a b : ValuePtr) (t : CString) :
    (_print_value (.ptr (.pair a b)) t).1 = (_print_value a [',']).1 ++ (_print_value b t).1 ∧
    (_print_value (.ptr (.pair a b)) t).2
      = wrap32 ((_print_value a [',']).2 + (_print_value b t).2) ∧
    (_print_value (.ptr (.pair (.ptr (.string "a".toList)) (.ptr (.int 5)))) "\n".toList).1
      = "a,5\n".toList := by
  refine ⟨?_, ?_, by decide⟩ <;> simp [_print_value, _print_value.switch]

/-- C14 (the code departs from it): for a present value that is an empty List,
`_on_value_change` writes the key and one TAB and no newline; for the List of the Int 1 and
an empty List it writes `key TAB 1,` and no newline. -/
theorem C14_empty_list_line_not_terminated (key : CString) (w : World) :
    (_on_value_change ⟨key, .ptr (.list .nil)⟩ w).stdout = w.stdout ++ (key ++ [TAB]) ∧
    (_on_value_change ⟨"key".toList, .ptr (.list .nil)⟩ { w with stdout := [] }).stdout
      = "key\t".toList ∧
    (_on_value_change ⟨"key".toList,
        .ptr (.list (.cons (.ptr (.int 1)) (.cons (.ptr (.list .nil)) .nil)))⟩
        { w with stdout := [] }).stdout = "key\t1,".toList := by
  refine ⟨?_, ?_, ?_⟩ <;>
    simp [_on_value_change, _print_value, _print_value.switch, _print_value.loop, TAB]
  decide

/-- C15: for every terminator, serialising an absent value and serialising an empty List
both write nothing, the terminator included, and return 0. -/
theorem C15_absent_and_empty_list_write_nothing (t : CString) :
    _print_value .null t = ([], 0) ∧ _print_value (.ptr (.list .nil)) t = ([], 0) := by
  constructor <;> simp [_print_value, _print_value.switch, _print_value.loop]

/-! ## Exit codes -/

/-- C16: `main` returns 1 when no directory argument is given, whatever the set-up calls
would report; otherwise 2 when a signal handler cannot be installed; otherwise 3 when
stdout cannot be switched to line buffering; otherwise 4 when stdin cannot; in these four
cases the state changes at most by a message on stderr, so the store has received no call.
When the set-up succeeds and the main loop returns, `main` returns 0. -/
theorem C16_exit_codes (argv : List CString) (setup : Setup) (fuel : Nat) (events : List Event)
    (w : World) :
    (argv.length < 2 → main argv setup fuel events w = some (1, w)) ∧
    (2 ≤ argv.length → setup.sighup_err = true ∨ setup.sigpipe_err = true →
      main argv setup fuel events w
        = some (2, { w with stderr := w.stderr ++ "Unable to trap signals!".toList })) ∧
    (2 ≤ argv.length → setup.sighup_err = false → setup.sigpipe_err = false →
      setup.setvbuf_stdout ≠ 0 →
      main argv setup fuel events w = some (3,
        { w with stderr := w.stderr ++ "Unable to switch stdout to line buffering!".toList })) ∧
    (2 ≤ argv.length → setup.sighup_err = false → setup.sigpipe_err = false →
      setup.setvbuf_stdout = 0 → setup.setvbuf_stdin ≠ 0 →
      main argv setup fuel events w = some (4,
        { w with stderr := w.stderr ++ "Unable to switch stdin to line buffering!".toList })) ∧
    (2 ≤ argv.length → setup.sighup_err = false → setup.sigpipe_err = false →
      setup.setvbuf_stdout = 0 → setup.setvbuf_stdin = 0 →
      ∀ w', g_main_loop_run fuel events
          { w with calls := w.calls ++ notificationCalls (argv.drop 1),
                   sources := [.in_IN, .in_PRI, .in_ERR, .in_HUP, .out_ERR, .out_HUP] }
          = some w' →
        main argv setup fuel events w = some (0, w')) := by
  refine ⟨fun h => ?_, fun h hs => ?_, fun h h1 h2 h3 => ?_, fun h h1 h2 h3 h4 => ?_,
    fun h h1 h2 h3 h4 w' hw => ?_⟩
  · simp [main, h]
  · have hlt : ¬ argv.length < 2 := by omega
    have hs' : (setup.sighup_err || setup.sigpipe_err) = true := by
      cases hs with
      | inl h => simp [h]
      | inr h => simp [h]
    simp only [main, hlt, hs', if_false, if_true]
  · have hlt : ¬ argv.length < 2 := by omega
    simp only [main, hlt, h1, h2, h3, if_false, Bool.or_self, Bool.false_eq_true, ne_eq,
      not_false_eq_true, if_true]
  · have hlt : ¬ argv.length < 2 := by omega
    simp only [main, hlt, h1, h2, h3, h4, if_false, Bool.or_self, Bool.false_eq_true, ne_eq,
      not_false_eq_true, not_true_eq_false, if_true]
  · have hlt : ¬ argv.length < 2 := by omega
    simp only [main, hlt, h1, h2, h3, h4, if_false, Bool.or_self, Bool.false_eq_true,
      ne_eq, not_true_eq_false, addNotifications_eq]
    rw [hw]
    rfl

/-- C16 at five runs: no argument with every set-up call failing; a failing SIGPIPE
handler; a failing line buffering of stdout; a failing line buffering of stdin; and a
run set up without failure that a signal ends. -/
theorem C16_exit_codes_witness :
    main ["pxgconf".toList] ⟨true, true, -1, -1⟩ 1 []
        (exampleWorld "key".toList .null true [])
      = some (1, exampleWorld "key".toList .null true []) ∧
    main ["pxgconf".toList, "/d".toList] ⟨false, true, -1, -1⟩ 1 []
        (exampleWorld "key".toList .null true [])
      = some (2, { exampleWorld "key".toList .null true [] with
          stderr := "Unable to trap signals!".toList }) ∧
    main ["pxgconf".toList, "/d".toList] ⟨false, false, -1, -1⟩ 1 []
        (exampleWorld "key".toList .null true [])
      = some (3, { exampleWorld "key".toList .null true [] with
          stderr := "Unable to switch stdout to line buffering!".toList }) ∧
    main ["pxgconf".toList, "/d".toList] ⟨false, false, 0, -1⟩ 1 []
        (exampleWorld "key".toList .null true [])
      = some (4, { exampleWorld "key".toList .null true [] with
          stderr := "Unable to switch stdin to line buffering!".toList }) ∧
    main ["pxgconf".toList, "/d".toList] ⟨false, false, 0, 0⟩ 1 [.signal]
        (exampleWorld "key".toList .null true [])
      = some (0,
        { exampleWorld "key".toList .null true [] with
          calls := [.add_dir "/d".toList, .notify_add "/d".toList, .notify "/d".toList],
          running := false }) :=
  ⟨(C16_exit_codes ["pxgconf".toList] ⟨true, true, -1, -1⟩ 1 []
      (exampleWorld "key".toList .null true [])).1 (by decide),
   (C16_exit_codes ["pxgconf".toList, "/d".toList] ⟨false, true, -1, -1⟩ 1 []
      (exampleWorld "key".toList .null true [])).2.1 (by decide) (Or.inr rfl),
   (C16_exit_codes ["pxgconf".toList, "/d".toList] ⟨false, false, -1, -1⟩ 1 []
      (exampleWorld "key".toList .null true [])).2.2.1 (by decide) rfl rfl (by decide),
   (C16_exit_codes ["pxgconf".toList, "/d".toList] ⟨false, false, 0, -1⟩ 1 []
      (exampleWorld "key".toList .null true [])).2.2.2.1 (by decide) rfl rfl rfl (by decide),
   (C16_exit_codes ["pxgconf".toList, "/d".toList] ⟨false, false, 0, 0⟩ 1 [.signal]
      (exampleWorld "key".toList .null true [])).2.2.2.2 (by decide) rfl rfl rfl rfl _ rfl⟩

/-! ## A read that reports try again -/

/-- C17 (the code departs from it): when a read reports try again, with the NULL string
that comes with every status but normal, `_stdin` makes that one read, asks the loop to
quit and returns false, so its watch does not stay attached; a loop run over two input
events, the second of which would deliver `key TAB 42`, ends after the first read with no
call on the store. -/
theorem C17_try_again_quits_the_loop (fuel : Nat) (w : World) :
    _stdin (fuel + 1) { w with reads := fun _ => ⟨.G_IO_STATUS_AGAIN, none⟩ }
      = some (false,
        { w with reads := fun _ => ⟨.G_IO_STATUS_AGAIN, none⟩,
                 nread := w.nread + 1, running := false }) ∧
    (∃ w', g_main_loop_run (fuel + 1) [.io .in_IN, .io .in_IN]
        (exampleChannel [⟨.G_IO_STATUS_AGAIN, none⟩,
          ⟨.G_IO_STATUS_NORMAL, some "key\t42\n".toList⟩] ⟨.G_IO_STATUS_EOF, none⟩) = some w' ∧
      w'.nread = 1 ∧ w'.running = false ∧ w'.calls = [] ∧
      w'.sources = [.in_PRI, .in_ERR, .in_HUP, .out_ERR, .out_HUP]) :=
  ⟨rfl, _, rfl, rfl, rfl, rfl, rfl⟩

/-! ## Ambiguity of the output and the returned count -/

/-- C18: List[Pair(Int 1, Int 2), Int 3] and List[Int 1, Int 2, Int 3] are different values
with the same serialisation for every terminator, so no function from texts to values
recovers every value from its serialisation. -/
theorem C18_serialisation_not_injective :
    GConfValue.list (.cons (.ptr (.pair (.ptr (.int 1)) (.ptr (.int 2))))
        (.cons (.ptr (.int 3)) .nil))
      ≠ GConfValue.list (.cons (.ptr (.int 1)) (.cons (.ptr (.int 2))
        (.cons (.ptr (.int 3)) .nil))) ∧
    (∀ t, (_print_value (.ptr (.list (.cons (.ptr (.pair (.ptr (.int 1)) (.ptr (.int 2))))
        (.cons (.ptr (.int 3)) .nil)))) t).1
      = (_print_value (.ptr (.list (.cons (.ptr (.int 1)) (.cons (.ptr (.int 2))
        (.cons (.ptr (.int 3)) .nil))))) t).1) ∧
    ¬ ∃ parse : CString → GConfValue,
        ∀ v, parse (_print_value (.ptr v) "\n".toList).1 = v := by
  have hne : GConfValue.list (.cons (.ptr (.pair (.ptr (.int 1)) (.ptr (.int 2))))
        (.cons (.ptr (.int 3)) .nil))
      ≠ GConfValue.list (.cons (.ptr (.int 1)) (.cons (.ptr (.int 2))
        (.cons (.ptr (.int 3)) .nil))) := by
    intro h
    injection h with h
    injection h with h _
    injection h with h
    cases h
  have heq : ∀ t, (_print_value (.ptr (.list (.cons (.ptr (.pair (.ptr (.int 1)) (.ptr (.int 2))))
        (.cons (.ptr (.int 3)) .nil)))) t).1
      = (_print_value (.ptr (.list (.cons (.ptr (.int 1)) (.cons (.ptr (.int 2))
        (.cons (.ptr (.int 3)) .nil))))) t).1 := by
    intro t
    simp [_print_value, _print_value.switch, _print_value.loop]
  refine ⟨hne, heq, ?_⟩
  rintro ⟨parse, hp⟩
  apply hne
  rw [← hp (.list (.cons (.ptr (.pair (.ptr (.int 1)) (.ptr (.int 2))))
        (.cons (.ptr (.int 3)) .nil))), heq, hp]

/-- C20: for a key without NUL or newline that is unset or holds a String, and a value text
without NUL, TAB or newline, when the store accepts the write `_stdin` returns true and the
line written for the notification of the key is the input line: key, TAB, value, newline. -/
theorem C20_string_write_echoes_line (fuel : Nat) (w : World) (key v : CString)
    (hk0 : NUL ∉ key) (hkn : NL ∉ key) (hv0 : NUL ∉ v) (hvn : NL ∉ v) (hvt : TAB ∉ v)
    (hr : w.reads w.nread = ⟨.G_IO_STATUS_NORMAL, some (key ++ TAB :: v ++ [NL])⟩)
    (ht : w.client.value key = .null ∨ ∃ s, w.client.value key = .ptr (.string s))
    (hw : w.client.writable key = true) :
    ∃ r, _stdin (fuel + 1) w = some r ∧ r.1 = true ∧
      r.2.client.value key = .ptr (.string v) ∧
      (_on_value_change ⟨key, r.2.client.value key⟩ r.2).stdout
        = w.stdout ++ (key ++ TAB :: v ++ [NL]) := by
  rw [stdin_line fuel w key v hk0 hkn hv0 hvn hvt hr]
  rcases ht with hu | ⟨s, hs⟩
  · simp [_set_key, hu, gconf_client_set_string, World.call, hw, GConfClient.store,
      _on_value_change, _print_value, _print_value.switch]
  · simp [_set_key, hs, GConfValue.type, gconf_client_set_string, World.call, hw,
      GConfClient.store, _on_value_change, _print_value, _print_value.switch]

/-- C20 at the line `newkey TAB hello`, the store holding nothing under `newkey`. -/
theorem C20_string_write_echoes_line_witness :
    ∃ r, _stdin 1 (exampleWorld "key".toList (.ptr (.int 7)) true ["newkey\thello\n".toList])
        = some r ∧ r.1 = true ∧
      r.2.client.value "newkey".toList = .ptr (.string "hello".toList) ∧
      (_on_value_change ⟨"newkey".toList, r.2.client.value "newkey".toList⟩ r.2).stdout
        = "newkey\thello\n".toList :=
  C20_string_write_echoes_line 0
    (exampleWorld "key".toList (.ptr (.int 7)) true ["newkey\thello\n".toList])
    "newkey".toList "hello".toList (by decide) (by decide) (by decide) (by decide)
    (by decide) rfl (Or.inl rfl) rfl

end PxGConf
